import Mathlib

set_option maxRecDepth 40000

/-!
Verification of the Elasticsearch completion-marker module (`luigi/contrib/esindex.py`).

The development shallowly embeds the module's two components:

* `ElasticsearchTarget` — the marker-based completion tracker
  (`marker_index_document_id`, `touch`, `exists`, `create_marker_index`,
  `ensure_hist_size`);
* `CopyToIndex` — the bulk loader (`_docs`, `run`).

The Elasticsearch backend is modelled as a pure state `ESState`: the set of
existing index names plus the contents of the tracking index (an association
list from document id to marker document).  Backend search is modelled as
"filter by the term query, then sort by date descending" using
`List.insertionSort`; backend errors are injected through explicit oracle
values.  The document id really is SHA-1 (implemented below over `Nat`
arithmetic mod 2^32), exactly as `hashlib.sha1(params).hexdigest()` computes
it in the source.
-/

/-! ### SHA-1 (`hashlib.sha1(...).hexdigest()`), over byte lists -/

/-- Rotate a 32-bit word (represented as a `Nat` below `2^32`) left by `n`. -/
def rotl32 (n x : Nat) : Nat :=
  ((x <<< n) ||| (x >>> (32 - n))) % 4294967296

/-- SHA-1 message padding: append `0x80`, zeros up to 56 mod 64, then the
bit length as 8 big-endian bytes. -/
def sha1pad (msg : List Nat) : List Nat :=
  msg ++ 128 :: List.replicate ((119 - msg.length % 64) % 64) 0
      ++ (List.range 8).map (fun i => ((msg.length * 8) >>> (8 * (7 - i))) % 256)

/-- Big-endian 32-bit word from four bytes. -/
def beWord (b0 b1 b2 b3 : Nat) : Nat :=
  ((b0 % 256) <<< 24) ||| ((b1 % 256) <<< 16) ||| ((b2 % 256) <<< 8) ||| (b3 % 256)

/-- Group a byte list into big-endian 32-bit words. -/
def chunkWords : List Nat → List Nat
  | b0 :: b1 :: b2 :: b3 :: rest => beWord b0 b1 b2 b3 :: chunkWords rest
  | _ => []

/-- One step of the SHA-1 message-schedule extension. -/
def sha1extendStep (w : List Nat) : List Nat :=
  w ++ [rotl32 1 ((w.getD (w.length - 3) 0) ^^^ (w.getD (w.length - 8) 0) ^^^
                  (w.getD (w.length - 14) 0) ^^^ (w.getD (w.length - 16) 0))]

/-- Iterate the message-schedule extension. -/
def sha1extendN : Nat → List Nat → List Nat
  | 0, w => w
  | n + 1, w => sha1extendN n (sha1extendStep w)

/-- The SHA-1 round function. -/
def sha1f (t b c d : Nat) : Nat :=
  if t < 20 then (b &&& c) ||| ((4294967295 ^^^ b) &&& d)
  else if t < 40 then b ^^^ c ^^^ d
  else if t < 60 then (b &&& c) ||| (b &&& d) ||| (c &&& d)
  else b ^^^ c ^^^ d

/-- The SHA-1 round constants. -/
def sha1k (t : Nat) : Nat :=
  if t < 20 then 1518500249
  else if t < 40 then 1859775393
  else if t < 60 then 2400959708
  else 3395469782

/-- The 80 SHA-1 rounds over the extended schedule. -/
def sha1rounds : Nat → List Nat → Nat × Nat × Nat × Nat × Nat → Nat × Nat × Nat × Nat × Nat
  | _, [], st => st
  | t, wi :: ws, (a, b, c, d, e) =>
    let temp := (rotl32 5 a + sha1f t b c d + e + sha1k t + wi) % 4294967296
    sha1rounds (t + 1) ws (temp, a, rotl32 30 b, c, d)

/-- Process one 64-byte chunk. -/
def sha1chunk (st : Nat × Nat × Nat × Nat × Nat) (chunk : List Nat) :
    Nat × Nat × Nat × Nat × Nat :=
  match st, sha1rounds 0 (sha1extendN 64 (chunkWords chunk)) st with
  | (h0, h1, h2, h3, h4), (a, b, c, d, e) =>
    ((h0 + a) % 4294967296, (h1 + b) % 4294967296, (h2 + c) % 4294967296,
     (h3 + d) % 4294967296, (h4 + e) % 4294967296)

/-- Fuel-driven chunking helper (structural recursion so the kernel can
evaluate it). -/
def chunksOfAux (n : Nat) : Nat → List α → List (List α)
  | 0, _ => []
  | _, [] => []
  | fuel + 1, l => l.take n :: chunksOfAux n fuel (l.drop n)

/-- Split a list into consecutive chunks of `n` elements (last one shorter);
used both for SHA-1 64-byte blocks and for the bulk API's `chunk_size`
batching. -/
def chunksOf (n : Nat) (l : List α) : List (List α) :=
  chunksOfAux n l.length l

/-- SHA-1 digest of a byte list, as five 32-bit words. -/
def sha1digestWords (msg : List Nat) : Nat × Nat × Nat × Nat × Nat :=
  (chunksOf 64 (sha1pad msg)).foldl sha1chunk
    (1732584193, 4023233417, 2562383102, 271733878, 3285377520)

/-- Lower-case hex digit. -/
def hexDigit (n : Nat) : Char :=
  if n < 10 then Char.ofNat (48 + n) else Char.ofNat (87 + n)

/-- Eight hex digits of a 32-bit word, most significant first. -/
def hexWord (w : Nat) : List Char :=
  (List.range 8).map (fun i => hexDigit ((w >>> (4 * (7 - i))) % 16))

/-- Hex digest string of a byte list (40 lower-case hex characters). -/
def sha1hexdigest (msg : List Nat) : String :=
  match sha1digestWords msg with
  | (h0, h1, h2, h3, h4) =>
    String.mk (hexWord h0 ++ hexWord h1 ++ hexWord h2 ++ hexWord h3 ++ hexWord h4)

/-- UTF-8 encoding of a character list. -/
def utf8Bytes : List Char → List Nat
  | [] => []
  | c :: cs =>
    let n := c.toNat
    (if n < 128 then [n]
     else if n < 2048 then [192 + n / 64, 128 + n % 64]
     else if n < 65536 then [224 + n / 4096, 128 + (n / 64) % 64, 128 + n % 64]
     else [240 + n / 262144, 128 + (n / 4096) % 64, 128 + (n / 64) % 64, 128 + n % 64])
      ++ utf8Bytes cs

/-- UTF-8 bytes of a string, as `Nat`s. -/
def strBytes (s : String) : List Nat :=
  utf8Bytes s.data

/-- SHA-1 hex digest of a string, i.e. `hashlib.sha1(s).hexdigest()`. -/
def sha1hex (s : String) : String :=
  sha1hexdigest (strBytes s)

/-! ### Data model: marker documents and the backend state -/

/-- Configuration default `marker-index` (`update_log`), read once from the
`elasticsearch` section of the configuration. -/
def marker_index : String := "update_log"

/-- Configuration default `marker-doc-type` (`entry`). -/
def marker_doc_type : String := "entry"

/-- The marker document body indexed by `touch`:
`(update_id, target_index, target_doc_type, date)`. -/
structure MarkerDoc where
  update_id : String
  target_index : String
  target_doc_type : String
  date : Nat
deriving DecidableEq

/-- An entry of the tracking index: document id paired with its body. -/
abbrev MarkerEntry := String × MarkerDoc

/-- The visible backend state: which indices exist, and the contents of the
tracking index (document id → marker document). -/
structure ESState where
  indices : List String
  markers : List MarkerEntry
deriving DecidableEq

/-- Constructor arguments of `ElasticsearchTarget.__init__`. -/
structure ElasticsearchTarget where
  host : String
  port : Nat
  index : String
  doc_type : String
  update_id : String
  marker_index_hist_size : Int
deriving DecidableEq

/-- Embedding of `marker_index_document_id`: SHA-1 hex digest of the string
`'%s:%s:%s' % (index, doc_type, update_id)`. -/
def ElasticsearchTarget.marker_index_document_id (t : ElasticsearchTarget) : String :=
  sha1hex (t.index ++ ":" ++ t.doc_type ++ ":" ++ t.update_id)

/-! ### Tracker operations -/

/-- Order used by the `sort=('date:desc',)` search clause. -/
def dateDesc (a b : MarkerEntry) : Prop := b.2.date ≤ a.2.date

instance : DecidableRel dateDesc := fun _ _ => Nat.decLe _ _

instance : IsTotal MarkerEntry dateDesc := ⟨fun a b => Nat.le_total b.2.date a.2.date⟩

instance : IsTrans MarkerEntry dateDesc := ⟨fun _ _ _ h1 h2 => Nat.le_trans h2 h1⟩

/-- Backend search with the term query `target_index = idx`, sorted by
`date` descending. -/
def searchHits (idx : String) (ms : List MarkerEntry) : List MarkerEntry :=
  List.insertionSort dateDesc (ms.filter (fun p => decide (p.2.target_index = idx)))

/-- Marker ids deleted by the `ensure_hist_size` loop: hits are enumerated
from 1, and the hit at position `i` is deleted when `i > hist_size`. -/
def hitsToDelete (hist : Int) (hits : List MarkerEntry) : List String :=
  (hits.enum.filter (fun p => decide ((p.1 : Int) + 1 > hist))).map (fun p => p.2.1)

/-- Embedding of `ensure_hist_size`: no-op when `marker_index_hist_size == 0`,
otherwise search all markers for `index` sorted by date descending and delete
every hit beyond position `hist_size`. -/
def ElasticsearchTarget.ensure_hist_size (t : ElasticsearchTarget) (s : ESState) : ESState :=
  if t.marker_index_hist_size = 0 then s
  else
    let doomed := hitsToDelete t.marker_index_hist_size (searchHits t.index s.markers)
    { s with markers := s.markers.filter (fun p => decide (p.1 ∉ doomed)) }

/-- Embedding of `create_marker_index`: create the tracking index if it does
not exist. -/
def create_marker_index (s : ESState) : ESState :=
  if marker_index ∈ s.indices then s
  else { s with indices := marker_index :: s.indices }

/-- The marker body written by `touch` at time `now`
(`datetime.datetime.now()` is passed in as an explicit clock value). -/
def markerDocOf (t : ElasticsearchTarget) (now : Nat) : MarkerDoc :=
  ⟨t.update_id, t.index, t.doc_type, now⟩

/-- Upsert of `es.index(..., id=..., body=...)` into the tracking index: a
document with the same id is overwritten in place. -/
def indexDoc (id : String) (d : MarkerDoc) (ms : List MarkerEntry) : List MarkerEntry :=
  (id, d) :: ms.filter (fun p => decide (p.1 ≠ id))

/-- Embedding of `touch`: ensure the tracking index exists, upsert the marker
document under its deterministic id, flush (no visible effect on the modelled
state), then prune the history. -/
def ElasticsearchTarget.touch (t : ElasticsearchTarget) (now : Nat) (s : ESState) : ESState :=
  let s1 := create_marker_index s
  let s2 := { s1 with
    markers := indexDoc t.marker_index_document_id (markerDocOf t now) s1.markers }
  t.ensure_hist_size s2

/-- Backend `get`-by-id against the tracking index. -/
def getMarker (id : String) (s : ESState) : Option MarkerDoc :=
  (s.markers.find? (fun p => decide (p.1 = id))).map Prod.snd

/-- Outcome of the backend `get` call inside `exists`: the document was
found, the backend reported `NotFoundError`, or it raised some other
`ElasticsearchException`. -/
inductive GetOutcome where
  | found (doc : MarkerDoc)
  | notFoundError
  | esError (msg : String)
deriving DecidableEq

/-- Embedding of the try/except body of `exists`, as a total function from
the backend outcome to the returned boolean plus the logged messages: a
found document yields `true`; `NotFoundError` logs a debug message and falls
through to `return False`; any other `ElasticsearchException` is logged via
`logger.warn` and also falls through to `return False`.  Totality of this
function is the "never raised to the caller" property. -/
def existsResult : GetOutcome → Bool × List String
  | .found _ => (true, [])
  | .notFoundError => (false, ["Marker document not found."])
  | .esError msg => (false, [msg])

/-- Outcome of the `get` call when the backend is healthy: determined by
whether the tracking index holds a document under the deterministic id. -/
def getOutcome (t : ElasticsearchTarget) (s : ESState) : GetOutcome :=
  match getMarker t.marker_index_document_id s with
  | some d => .found d
  | none => .notFoundError

/-- Embedding of `exists` against a healthy backend. -/
def ElasticsearchTarget.exists' (t : ElasticsearchTarget) (s : ESState) : Bool :=
  (existsResult (getOutcome t s)).1

/-! ### CopyToIndex: documents and normalization -/

/-- A structured (already parsed) document: an association list of fields.
Field values are kept opaque as strings. -/
abbrev Doc := List (String × String)

/-- A value yielded by `docs()`: a JSON string, a dict, or anything else
(which `_docs` rejects). -/
inductive PyVal where
  | str (s : String)
  | dict (d : Doc)
  | other (tag : String)
deriving DecidableEq

/-- Membership test of a key in a dict (`'_index' in doc`). -/
def hasField (k : String) (d : Doc) : Bool :=
  d.any (fun p => decide (p.1 = k))

/-- Field lookup in a dict. -/
def getField (k : String) (d : Doc) : Option String :=
  (d.find? (fun p => decide (p.1 = k))).map Prod.snd

/-- First statement of the `_docs` loop body: set `_index` to the task's
index if the document does not carry one. -/
def addIndexDefault (idx : String) (d : Doc) : Doc :=
  if hasField "_index" d then d else d ++ [("_index", idx)]

/-- Second statement of the `_docs` loop body: set `_type` to the task's
doc_type if the document does not carry one. -/
def addTypeDefault (dt : String) (d : Doc) : Doc :=
  if hasField "_type" d then d else d ++ [("_type", dt)]

/-- The body of the `_docs` loop on a parsed document: set `_index` to the
task's index if absent, then `_type` to the task's doc_type if absent. -/
def addIndexAndType (idx dt : String) (d : Doc) : Doc :=
  addTypeDefault dt (addIndexDefault idx d)

/-- Processing of one yielded value inside the `_docs` loop.  `loads` is the
black-box `json.loads` collaborator (the spec treats textual entries as
parsing to structured records).  In parsing mode a non-string value makes
`json.loads` raise; in non-parsing mode a string is probed by the substring
test `'_index' in doc` and any mutation attempt raises, and any other value
fails the membership test itself. -/
def normalizeDoc (loads : String → Doc) (idx dt : String) (needs_parsing : Bool) :
    PyVal → Except String PyVal
  | .str s =>
    if needs_parsing then .ok (.dict (addIndexAndType idx dt (loads s)))
    else if "_index".data.IsInfix s.data ∧ "_type".data.IsInfix s.data then .ok (.str s)
    else .error "TypeError: str object does not support item assignment"
  | .dict d =>
    if needs_parsing then .error "TypeError: expected string or buffer"
    else .ok (.dict (addIndexAndType idx dt d))
  | .other _ =>
    if needs_parsing then .error "TypeError: expected string or buffer"
    else .error "TypeError: argument is not iterable"

/-- Error-propagating map over a list (the generator either yields all
processed documents or raises at some element). -/
def exceptMap (f : α → Except String β) : List α → Except String (List β)
  | [] => .ok []
  | x :: xs =>
    match f x with
    | .error e => .error e
    | .ok y =>
      match exceptMap f xs with
      | .error e => .error e
      | .ok ys => .ok (y :: ys)

/-- Embedding of `CopyToIndex._docs`: sample the first element of `docs()` to
decide whether entries need JSON parsing (a string: yes; a dict: no; anything
else: `RuntimeError`), then process the whole stream in that mode.  An empty
stream makes `iter(self.docs()).next()` raise `StopIteration`. -/
def CopyToIndex._docs (loads : String → Doc) (idx dt : String) (docs : List PyVal) :
    Except String (List PyVal) :=
  match docs with
  | [] => .error "StopIteration"
  | first :: _ =>
    match first with
    | .str _ => exceptMap (normalizeDoc loads idx dt true) docs
    | .dict _ => exceptMap (normalizeDoc loads idx dt false) docs
    | .other _ => .error "Document must be either JSON strings or dict."

/-! ### CopyToIndex: configuration and run -/

/-- Configuration surface of a `CopyToIndex` task (its overridable
properties plus the task identity). -/
structure CopyToIndexConfig where
  host : String
  port : Nat
  index : String
  doc_type : String
  mapping : Option String
  settings : String
  chunk_size : Nat
  raise_on_error : Bool
  purge_existing_index : Bool
  marker_index_hist_size : Int
  timeout : Nat
  task_id : String
deriving DecidableEq

/-- Embedding of `update_id`: the unique identifier of this indexing task is
its task id. -/
def CopyToIndexConfig.update_id (c : CopyToIndexConfig) : String :=
  c.task_id

/-- Embedding of `output`: the `ElasticsearchTarget` representing the
inserted dataset. -/
def CopyToIndexConfig.output (c : CopyToIndexConfig) : ElasticsearchTarget :=
  ⟨c.host, c.port, c.index, c.doc_type, c.update_id, c.marker_index_hist_size⟩

/-- Backend API calls observable during `run`, in the order they are
issued. -/
inductive ESEvent where
  | deleteIndexCall (idx : String)
  | createIndexCall (idx : String) (settings : String)
  | putMappingCall (idx : String) (dt : String) (body : String)
  | putSettingsCall (idx : String) (refresh_interval : String)
  | bulkCall (batch : List PyVal)
  | refreshCall
  | touchCall (host : String) (port : Nat) (idx : String) (dt : String) (uid : String)
deriving DecidableEq

/-- Injected backend failures: each `es` call either succeeds or raises the
given error.  `bulkErr` gives the batch-level error of a bulk submission. -/
structure Oracle where
  deleteErr : Option String
  createErr : Option String
  mappingErr : Option String
  disableErr : Option String
  restoreErr : Option String
  refreshErr : Option String
  bulkErr : List PyVal → Option String

/-- Embedding of `delete_index`: delete the target index if it exists. -/
def CopyToIndex.delete_index (c : CopyToIndexConfig) (s : ESState) : List ESEvent × ESState :=
  if c.index ∈ s.indices then
    ([.deleteIndexCall c.index], { s with indices := s.indices.erase c.index })
  else ([], s)

/-- Embedding of `create_index`: create the target index with the configured
settings body if it does not exist. -/
def CopyToIndex.create_index (c : CopyToIndexConfig) (s : ESState) : List ESEvent × ESState :=
  if c.index ∈ s.indices then ([], s)
  else ([.createIndexCall c.index c.settings], { s with indices := c.index :: s.indices })

/-- Bulk submission of the batches: each batch is one API call; with
`raise_on_error` the first failing batch aborts, otherwise failures are
logged by the bulk layer and the run continues. -/
def bulkRun (o : Oracle) (raise_on_error : Bool) :
    List (List PyVal) → List ESEvent × Option String
  | [] => ([], none)
  | b :: bs =>
    match o.bulkErr b, raise_on_error with
    | some e, true => ([.bulkCall b], some e)
    | _, _ =>
      let r := bulkRun o raise_on_error bs
      (.bulkCall b :: r.1, r.2)

/-- Result of one `run`: the trace of backend calls issued, the final
backend state, and the propagated error if any step raised. -/
structure RunResult where
  trace : List ESEvent
  state : ESState
  error : Option String

/-- Embedding of `CopyToIndex.run`: optionally purge, create the index if
missing, apply the mapping if configured, disable the refresh interval,
bulk-index the normalized documents in batches of `chunk_size`, restore the
refresh interval, refresh, and touch the marker.  An error at any step
propagates and aborts the remaining steps. -/
def CopyToIndex.run (c : CopyToIndexConfig) (o : Oracle) (loads : String → Doc)
    (docs : List PyVal) (now : Nat) (s : ESState) : RunResult :=
  match c.purge_existing_index, o.deleteErr with
  | true, some e => ⟨[], s, some e⟩
  | purge, _ =>
    let r1 := if purge then CopyToIndex.delete_index c s else ([], s)
    match o.createErr with
    | some e => ⟨r1.1, r1.2, some e⟩
    | none =>
      let r2 := CopyToIndex.create_index c r1.2
      let tr12 := r1.1 ++ r2.1
      match c.mapping, o.mappingErr with
      | some _, some e => ⟨tr12, r2.2, some e⟩
      | mp, _ =>
        let tr3 : List ESEvent :=
          match mp with
          | some m => [.putMappingCall c.index c.doc_type m]
          | none => []
        match o.disableErr with
        | some e => ⟨tr12 ++ tr3, r2.2, some e⟩
        | none =>
          let tr4 : List ESEvent := [.putSettingsCall c.index "-1"]
          match CopyToIndex._docs loads c.index c.doc_type docs with
          | .error e => ⟨tr12 ++ tr3 ++ tr4, r2.2, some e⟩
          | .ok normed =>
            let rb := bulkRun o c.raise_on_error (chunksOf c.chunk_size normed)
            match rb.2 with
            | some e => ⟨tr12 ++ tr3 ++ tr4 ++ rb.1, r2.2, some e⟩
            | none =>
              match o.restoreErr with
              | some e => ⟨tr12 ++ tr3 ++ tr4 ++ rb.1, r2.2, some e⟩
              | none =>
                let tr5 : List ESEvent := [.putSettingsCall c.index "1s"]
                match o.refreshErr with
                | some e => ⟨tr12 ++ tr3 ++ tr4 ++ rb.1 ++ tr5, r2.2, some e⟩
                | none =>
                  ⟨tr12 ++ tr3 ++ tr4 ++ rb.1 ++ tr5 ++
                      [.refreshCall,
                       .touchCall c.host c.port c.index c.doc_type c.update_id],
                    c.output.touch now r2.2, none⟩

/-! ### Touch sequences (for the pruning bound) -/

/-- The target built for one update id (history size and connection data
fixed). -/
def targetFor (host : String) (port : Nat) (idx dt : String) (hist : Int)
    (u : String) : ElasticsearchTarget :=
  ⟨host, port, idx, dt, u, hist⟩

/-- Marker document id of the target for one update id. -/
def midFor (host : String) (port : Nat) (idx dt : String) (hist : Int)
    (u : String) : String :=
  (targetFor host port idx dt hist u).marker_index_document_id

/-- Perform one `touch` per update id, at strictly increasing dates
`n+1, n+2, ...` (the clock ticks once per touch). -/
def touchSeq (host : String) (port : Nat) (idx dt : String) (hist : Int) :
    List String → Nat → ESState → ESState
  | [], _, s => s
  | u :: us, n, s =>
    touchSeq host port idx dt hist us (n + 1)
      ((targetFor host port idx dt hist u).touch (n + 1) s)

/-- The `k` most recent markers after touching every update id of `us` in
order at dates `1, 2, ...`: newest first, truncated to `k`. -/
def expectedMarkers (host : String) (port : Nat) (idx dt : String) (hist : Int)
    (us : List String) (k : Nat) : List MarkerEntry :=
  ((us.enum.map (fun p => (midFor host port idx dt hist p.2,
      (⟨p.2, idx, dt, p.1 + 1⟩ : MarkerDoc)))).reverse).take k

/-! ### Validation of the SHA-1 embedding against standard test vectors -/

example : sha1hex "abc" = "a9993e364706816aba3e25717850c26c9cd0d89d" := by decide

example : sha1hex "" = "da39a3ee5e6b4b0d3255bfef95601890afd80709" := by decide

/-! ### Basic state lemmas -/

theorem create_marker_index_markers (s : ESState) :
    (create_marker_index s).markers = s.markers := by
  unfold create_marker_index; split <;> rfl

theorem create_marker_index_mem (s : ESState) :
    marker_index ∈ (create_marker_index s).indices := by
  unfold create_marker_index; split
  · assumption
  · exact List.mem_cons_self _ _

theorem ensure_hist_size_indices (t : ElasticsearchTarget) (s : ESState) :
    (t.ensure_hist_size s).indices = s.indices := by
  unfold ElasticsearchTarget.ensure_hist_size; split <;> rfl

theorem exists'_eq_isSome (t : ElasticsearchTarget) (s : ESState) :
    t.exists' s = (getMarker t.marker_index_document_id s).isSome := by
  cases h : getMarker t.marker_index_document_id s <;>
    simp [ElasticsearchTarget.exists', getOutcome, h, existsResult]

theorem getMarker_congr (id : String) {s s' : ESState} (h : s.markers = s'.markers) :
    getMarker id s = getMarker id s' := by
  unfold getMarker; rw [h]

/-! ### Sorting helpers -/

theorem orderedInsert_top {a : MarkerEntry} {l : List MarkerEntry}
    (h : ∀ x ∈ l, dateDesc a x) : List.orderedInsert dateDesc a l = a :: l := by
  cases l with
  | nil => rfl
  | cons b bs => exact List.orderedInsert_of_le dateDesc bs (h b (List.mem_cons_self b bs))

theorem insertionSort_top {a : MarkerEntry} {l : List MarkerEntry}
    (h : ∀ x ∈ l, dateDesc a x) :
    List.insertionSort dateDesc (a :: l) = a :: List.insertionSort dateDesc l := by
  show List.orderedInsert dateDesc a (List.insertionSort dateDesc l) = _
  exact orderedInsert_top (fun x hx => h x ((List.mem_insertionSort dateDesc).1 hx))

/-! ### Enumeration and deletion-window helpers -/

theorem enumFrom_filter_le_map_snd {α : Type} (k : Nat) :
    ∀ (l : List α) (n : Nat),
      ((List.enumFrom n l).filter (fun p => decide (k ≤ p.1))).map Prod.snd
        = l.drop (k - n)
  | [], _ => by simp
  | x :: xs, n => by
    rw [List.enumFrom_cons]
    by_cases h : k ≤ n
    · rw [List.filter_cons_of_pos (by simpa using h)]
      rw [List.map_cons, enumFrom_filter_le_map_snd k xs (n + 1)]
      have h1 : k - n = 0 := Nat.sub_eq_zero_of_le h
      have h2 : k - (n + 1) = 0 := Nat.sub_eq_zero_of_le (Nat.le_succ_of_le h)
      rw [h1, h2]
      simp
    · rw [List.filter_cons_of_neg (by simpa using h)]
      rw [enumFrom_filter_le_map_snd k xs (n + 1)]
      have h3 : k - n = (k - (n + 1)) + 1 := by omega
      rw [h3, List.drop_succ_cons]

theorem hitsToDelete_ofNat (k : Nat) (hits : List MarkerEntry) :
    hitsToDelete (k : Int) hits = (hits.drop k).map Prod.fst := by
  unfold hitsToDelete
  have h1 : ∀ p ∈ hits.enum, (decide ((p.1 : Int) + 1 > (k : Int))) = decide (k ≤ p.1) := by
    intro p _; rw [decide_eq_decide]; omega
  rw [List.filter_congr h1]
  have h2 : (fun p : Nat × MarkerEntry => p.2.1)
      = (Prod.fst : MarkerEntry → String) ∘ Prod.snd := rfl
  rw [h2, ← List.map_map]
  show ((List.filter _ (List.enumFrom 0 hits)).map Prod.snd).map Prod.fst = _
  rw [enumFrom_filter_le_map_snd, Nat.sub_zero]

theorem hitsToDelete_neg {hist : Int} (h : hist < 0) (hits : List MarkerEntry) :
    hitsToDelete hist hits = hits.map Prod.fst := by
  unfold hitsToDelete
  have h1 : ∀ p ∈ hits.enum, (decide ((p.1 : Int) + 1 > hist)) = true := by
    intro p _; rw [decide_eq_true_eq]; omega
  rw [List.filter_congr h1, List.filter_eq_self.2 (fun a _ => rfl)]
  have h2 : (fun p : Nat × MarkerEntry => p.2.1)
      = (Prod.fst : MarkerEntry → String) ∘ Prod.snd := rfl
  rw [h2, ← List.map_map]
  show ((List.enumFrom 0 hits).map Prod.snd).map Prod.fst = _
  rw [List.enumFrom_map_snd]

theorem pairwise_fst_lt_enumFrom {α : Type} (l : List α) :
    ∀ n, List.Pairwise (fun x y : Nat × α => x.1 < y.1) (List.enumFrom n l) := by
  induction l with
  | nil => intro n; simp
  | cons a as ih =>
    intro n
    rw [List.enumFrom_cons]
    refine List.Pairwise.cons ?_ (ih (n + 1))
    intro y hy
    obtain ⟨i, x⟩ := y
    exact (List.mem_enumFrom hy).1

/-! ### Key-uniqueness helpers -/

theorem keyEq_of_nodup {l : List MarkerEntry}
    (h : (l.map Prod.fst).Nodup) {p q : MarkerEntry}
    (hp : p ∈ l) (hq : q ∈ l) (hkey : p.1 = q.1) : p = q := by
  induction l with
  | nil => cases hp
  | cons a as ih =>
    rw [List.map_cons, List.nodup_cons] at h
    rcases List.mem_cons.1 hp with rfl | hp' <;> rcases List.mem_cons.1 hq with rfl | hq'
    · rfl
    · exact absurd (by rw [hkey]; exact List.mem_map_of_mem _ hq') h.1
    · exact absurd (by rw [← hkey]; exact List.mem_map_of_mem _ hp') h.1
    · exact ih h.2 hp' hq'

theorem filter_drop_keys {l : List MarkerEntry} (k : Nat)
    (h : (l.map Prod.fst).Nodup) :
    l.filter (fun p => decide (p.1 ∉ (l.drop k).map Prod.fst)) = l.take k := by
  set DK := (l.drop k).map Prod.fst with hDK
  have hsplit : (l.take k).map Prod.fst ++ DK = l.map Prod.fst := by
    rw [hDK, ← List.map_append, List.take_append_drop]
  have hdis : (List.map Prod.fst (l.take k)).Disjoint DK := by
    have hnd : ((l.take k).map Prod.fst ++ DK).Nodup := by rw [hsplit]; exact h
    exact (List.nodup_append.1 hnd).2.2
  conv_lhs => rw [← List.take_append_drop k l]
  rw [List.filter_append]
  have h1 : (l.take k).filter (fun p => decide (p.1 ∉ DK)) = l.take k := by
    rw [List.filter_eq_self]
    intro a ha
    simp only [decide_eq_true_eq]
    exact fun hmem => hdis (List.mem_map_of_mem Prod.fst ha) hmem
  have h2 : (l.drop k).filter (fun p => decide (p.1 ∉ DK)) = [] := by
    rw [List.filter_eq_nil_iff]
    intro a ha
    simp only [decide_eq_true_eq]
    intro hnot
    exact hnot (hDK ▸ List.mem_map_of_mem Prod.fst ha)
  rw [h1, h2, List.append_nil]

/-! ### The master lemma about one `touch` -/

theorem ensure_hist_size_of_zero (t : ElasticsearchTarget) (s : ESState)
    (h : t.marker_index_hist_size = 0) : t.ensure_hist_size s = s := by
  unfold ElasticsearchTarget.ensure_hist_size
  rw [if_pos h]

theorem ensure_hist_size_of_ne (t : ElasticsearchTarget) (s : ESState)
    (h : ¬ t.marker_index_hist_size = 0) :
    (t.ensure_hist_size s).markers
      = s.markers.filter (fun p => decide (p.1 ∉ hitsToDelete t.marker_index_hist_size
          (searchHits t.index s.markers))) := by
  unfold ElasticsearchTarget.ensure_hist_size
  rw [if_neg h]

theorem indexDoc_filter_cons (id : String) (doc : MarkerDoc) (ms : List MarkerEntry)
    (q : MarkerEntry → Bool) (h : q (id, doc) = true) :
    (indexDoc id doc ms).filter q
      = (id, doc) :: (ms.filter (fun p => decide (p.1 ≠ id))).filter q := by
  unfold indexDoc
  rw [List.filter_cons_of_pos h]

theorem touch_shape (t : ElasticsearchTarget) (s : ESState) (now : Nat)
    (rest : List MarkerEntry)
    (hmk : (t.touch now s).markers
      = (t.marker_index_document_id, markerDocOf t now) :: rest)
    (hrest : ∀ p ∈ rest, p ∈ s.markers ∧ p.1 ≠ t.marker_index_document_id)
    (hrnodup : (rest.map Prod.fst).Nodup) :
    getMarker t.marker_index_document_id (t.touch now s) = some (markerDocOf t now)
    ∧ (t.touch now s).markers.countP
        (fun p => decide (p.1 = t.marker_index_document_id)) = 1
    ∧ ((t.touch now s).markers.map Prod.fst).Nodup
    ∧ (∀ p ∈ (t.touch now s).markers,
        p = (t.marker_index_document_id, markerDocOf t now)
        ∨ (p ∈ s.markers ∧ p.1 ≠ t.marker_index_document_id)) := by
  refine ⟨?_, ?_, ?_, ?_⟩
  · unfold getMarker
    rw [hmk, List.find?_cons_of_pos _ (by simp)]
    rfl
  · rw [hmk, List.countP_cons]
    have hz : rest.countP (fun p => decide (p.1 = t.marker_index_document_id)) = 0 := by
      rw [List.countP_eq_zero]
      intro a ha
      simpa using (hrest a ha).2
    rw [hz]
    simp
  · rw [hmk, List.map_cons, List.nodup_cons]
    refine ⟨?_, hrnodup⟩
    intro hmem
    obtain ⟨p, hp, hp1⟩ := List.mem_map.1 hmem
    exact (hrest p hp).2 hp1
  · intro p hp
    rw [hmk] at hp
    rcases List.mem_cons.1 hp with rfl | hp'
    · exact Or.inl rfl
    · exact Or.inr (hrest p hp')

theorem touch_master (t : ElasticsearchTarget) (s : ESState) (now : Nat)
    (hk : (s.markers.map Prod.fst).Nodup)
    (hh : 0 ≤ t.marker_index_hist_size)
    (hd : ∀ p ∈ s.markers, p.2.target_index = t.index →
        p.1 ≠ t.marker_index_document_id → p.2.date < now) :
    getMarker t.marker_index_document_id (t.touch now s) = some (markerDocOf t now)
    ∧ (t.touch now s).markers.countP
        (fun p => decide (p.1 = t.marker_index_document_id)) = 1
    ∧ ((t.touch now s).markers.map Prod.fst).Nodup
    ∧ (∀ p ∈ (t.touch now s).markers,
        p = (t.marker_index_document_id, markerDocOf t now)
        ∨ (p ∈ s.markers ∧ p.1 ≠ t.marker_index_document_id))
    ∧ marker_index ∈ (t.touch now s).indices := by
  have hind : (t.touch now s).indices = (create_marker_index s).indices := by
    unfold ElasticsearchTarget.touch
    rw [ensure_hist_size_indices]
  have htouch : t.touch now s
      = t.ensure_hist_size
          ⟨(create_marker_index s).indices,
           indexDoc t.marker_index_document_id (markerDocOf t now) s.markers⟩ := by
    have h0 : t.touch now s
        = t.ensure_hist_size
            ⟨(create_marker_index s).indices,
             indexDoc t.marker_index_document_id (markerDocOf t now)
               (create_marker_index s).markers⟩ := rfl
    rw [create_marker_index_markers] at h0
    exact h0
  have htail : ∀ p ∈ s.markers.filter
      (fun p => decide (p.1 ≠ t.marker_index_document_id)),
      p ∈ s.markers ∧ p.1 ≠ t.marker_index_document_id := by
    intro p hp
    have h1 := List.mem_filter.1 hp
    exact ⟨h1.1, by simpa using h1.2⟩
  have htailnd : ((s.markers.filter
      (fun p => decide (p.1 ≠ t.marker_index_document_id))).map Prod.fst).Nodup :=
    ((List.filter_sublist s.markers).map Prod.fst).nodup hk
  rcases eq_or_lt_of_le hh with h0 | hpos
  · -- hist_size = 0 : ensure_hist_size is a no-op
    have hmk : (t.touch now s).markers
        = (t.marker_index_document_id, markerDocOf t now)
          :: s.markers.filter (fun p => decide (p.1 ≠ t.marker_index_document_id)) := by
      rw [htouch, ensure_hist_size_of_zero t _ h0.symm]
      rfl
    exact ⟨(touch_shape t s now _ hmk htail htailnd).1,
           (touch_shape t s now _ hmk htail htailnd).2.1,
           (touch_shape t s now _ hmk htail htailnd).2.2.1,
           (touch_shape t s now _ hmk htail htailnd).2.2.2,
           by rw [hind]; exact create_marker_index_mem s⟩
  · -- hist_size > 0 : the fresh marker is the strict maximum by date and
    -- survives the pruning window
    have hne : ¬ t.marker_index_hist_size = 0 := by omega
    set id := t.marker_index_document_id with hid
    set doc := markerDocOf t now with hdocdef
    have hdocidx : doc.target_index = t.index := rfl
    have hdocdate : doc.date = now := rfl
    set tl := (s.markers.filter (fun p => decide (p.1 ≠ id))).filter
        (fun p => decide (p.2.target_index = t.index)) with htldef
    have htl : ∀ x ∈ tl, x.2.date < now := by
      intro x hx
      rw [htldef] at hx
      have h1 := List.mem_filter.1 hx
      have h2 := htail x h1.1
      exact hd x h2.1 (by simpa using h1.2) h2.2
    have hfiltm : (indexDoc id doc s.markers).filter
        (fun p => decide (p.2.target_index = t.index)) = (id, doc) :: tl :=
      indexDoc_filter_cons id doc s.markers _ (by simp [hdocidx])
    have hhits : searchHits t.index (indexDoc id doc s.markers)
        = (id, doc) :: List.insertionSort dateDesc tl := by
      unfold searchHits
      rw [hfiltm]
      exact insertionSort_top
        (fun x hx => le_of_lt (hdocdate ▸ htl x hx))
    have hsortmem : ∀ x ∈ List.insertionSort dateDesc tl,
        x ∈ s.markers ∧ x.1 ≠ id := by
      intro x hx
      have h1 := (List.mem_insertionSort dateDesc).1 hx
      rw [htldef] at h1
      exact htail x (List.mem_filter.1 h1).1
    obtain ⟨k, hk1⟩ : ∃ k, t.marker_index_hist_size.toNat = k + 1 :=
      ⟨t.marker_index_hist_size.toNat - 1, by omega⟩
    have hidnot : id ∉ hitsToDelete t.marker_index_hist_size
        (searchHits t.index (indexDoc id doc s.markers)) := by
      rw [hhits, ← Int.toNat_of_nonneg hh, hitsToDelete_ofNat, hk1,
          List.drop_succ_cons]
      intro hmem
      obtain ⟨p, hp, hp1⟩ := List.mem_map.1 hmem
      exact (hsortmem p (List.mem_of_mem_drop hp)).2 hp1
    have hmk : (t.touch now s).markers
        = (id, doc) :: (s.markers.filter (fun p => decide (p.1 ≠ id))).filter
            (fun p => decide (p.1 ∉ hitsToDelete t.marker_index_hist_size
              (searchHits t.index (indexDoc id doc s.markers)))) := by
      rw [htouch, ensure_hist_size_of_ne t _ hne]
      exact indexDoc_filter_cons id doc s.markers _ (decide_eq_true hidnot)
    have hrest2 : ∀ p ∈ (s.markers.filter (fun p => decide (p.1 ≠ id))).filter
        (fun p => decide (p.1 ∉ hitsToDelete t.marker_index_hist_size
          (searchHits t.index (indexDoc id doc s.markers)))),
        p ∈ s.markers ∧ p.1 ≠ id := by
      intro p hp
      exact htail p (List.mem_filter.1 hp).1
    have hrnd2 : (((s.markers.filter (fun p => decide (p.1 ≠ id))).filter
        (fun p => decide (p.1 ∉ hitsToDelete t.marker_index_hist_size
          (searchHits t.index (indexDoc id doc s.markers))))).map Prod.fst).Nodup :=
      ((List.filter_sublist _).map Prod.fst).nodup htailnd
    exact ⟨(touch_shape t s now _ hmk hrest2 hrnd2).1,
           (touch_shape t s now _ hmk hrest2 hrnd2).2.1,
           (touch_shape t s now _ hmk hrest2 hrnd2).2.2.1,
           (touch_shape t s now _ hmk hrest2 hrnd2).2.2.2,
           by rw [hind]; exact create_marker_index_mem s⟩

/-! ### Claim C1: idempotence of `touch` -/

/-- C1: touch() is idempotent: for every (index, doc_type, update_id) key,
calling touch() twice with the same key leaves exactly one marker document
for that key in the tracking index (the second call overwrites the first in
place via the deterministic document id), never two.  Stated for any
well-formed prior state (unique document ids, a non-negative history size,
and prior markers dated before the touches, the clock being monotone). -/
theorem touch_twice_one_marker (t : ElasticsearchTarget) (s : ESState) (n1 n2 : Nat)
    (hk : (s.markers.map Prod.fst).Nodup)
    (hh : 0 ≤ t.marker_index_hist_size)
    (hd : ∀ p ∈ s.markers, p.2.target_index = t.index →
        p.1 ≠ t.marker_index_document_id → p.2.date < n1)
    (hn : n1 ≤ n2) :
    (t.touch n2 (t.touch n1 s)).markers.countP
      (fun p => decide (p.1 = t.marker_index_document_id)) = 1 := by
  obtain ⟨-, -, hnd1, hmem1, -⟩ := touch_master t s n1 hk hh hd
  have hd2 : ∀ p ∈ (t.touch n1 s).markers, p.2.target_index = t.index →
      p.1 ≠ t.marker_index_document_id → p.2.date < n2 := by
    intro p hp hidx hne
    rcases hmem1 p hp with rfl | ⟨hp', hne'⟩
    · exact absurd rfl hne
    · exact lt_of_lt_of_le (hd p hp' hidx hne') hn
  exact (touch_master t (t.touch n1 s) n2 hnd1 hh hd2).2.1

/-- Witness for C1 at a concrete key, from the empty tracking index. -/
theorem touch_twice_one_marker_witness :
    ((⟨"localhost", 9200, "books", "default", "update 1", 1⟩ :
        ElasticsearchTarget).touch 2
      ((⟨"localhost", 9200, "books", "default", "update 1", 1⟩ :
        ElasticsearchTarget).touch 1 ⟨[], []⟩)).markers.countP
      (fun p => decide (p.1 = (⟨"localhost", 9200, "books", "default", "update 1", 1⟩ :
        ElasticsearchTarget).marker_index_document_id)) = 1 :=
  touch_twice_one_marker _ ⟨[], []⟩ 1 2 (by simp) (by decide)
    (fun p hp => absurd hp (List.not_mem_nil p)) (by decide)

/-! ### Claim C2: determinism of the marker document id -/

/-- C2 (amended): marker_index_document_id() is a deterministic pure function
of the (index, doc_type, update_id) triple — the same triple always produces
the same id, independently of host, port and history size; more generally any
two targets whose colon-joined serializations `index:doc_type:update_id`
coincide receive the same id.  (The original claim's "no two distinct triples
map to the same id by construction" is refuted by `marker_id_collision`:
distinct triples whose fields contain `:` can serialize identically and then
collide with certainty, not with negligible probability.) -/
theorem marker_id_deterministic (t1 t2 : ElasticsearchTarget) :
    ((t1.index, t1.doc_type, t1.update_id) = (t2.index, t2.doc_type, t2.update_id) →
      t1.marker_index_document_id = t2.marker_index_document_id)
    ∧ (t1.index ++ ":" ++ t1.doc_type ++ ":" ++ t1.update_id
        = t2.index ++ ":" ++ t2.doc_type ++ ":" ++ t2.update_id →
      t1.marker_index_document_id = t2.marker_index_document_id) := by
  constructor
  · intro h
    injection h with h1 h23
    injection h23 with h2 h3
    unfold ElasticsearchTarget.marker_index_document_id
    rw [h1, h2, h3]
  · intro h
    unfold ElasticsearchTarget.marker_index_document_id
    rw [h]

/-- Witness for C2: two targets sharing the triple but differing in host,
port and history size get the same id. -/
theorem marker_id_deterministic_witness :
    (⟨"host-a", 9200, "books", "default", "u", 0⟩ :
        ElasticsearchTarget).marker_index_document_id
      = (⟨"host-b", 9300, "books", "default", "u", 7⟩ :
        ElasticsearchTarget).marker_index_document_id :=
  (marker_id_deterministic _ _).1 rfl

/-- Counterexample for C2 as stated: the distinct triples ("a:b", "c", "d")
and ("a", "b:c", "d") both serialize to "a:b:c:d" and therefore receive the
same marker document id with certainty. -/
theorem marker_id_collision :
    ((("a:b" : String), ("c" : String), ("d" : String))
        ≠ (("a" : String), ("b:c" : String), ("d" : String)))
    ∧ (⟨"localhost", 9200, "a:b", "c", "d", 0⟩ :
        ElasticsearchTarget).marker_index_document_id
      = (⟨"localhost", 9200, "a", "b:c", "d", 0⟩ :
        ElasticsearchTarget).marker_index_document_id :=
  ⟨by decide, rfl⟩

/-! ### Claim C3: `exists` is false before `touch` and true right after -/

/-- C3: for every key, exists() returns false before any touch() has been
performed for that key (no marker document under the key's id), and returns
true immediately after touch() completes for that key; touch() also ensures
the tracking index exists and upserts the marker document, which is what
makes it visible to the very next exists() call. -/
theorem exists_false_before_true_after (t : ElasticsearchTarget) (s : ESState) (now : Nat)
    (hk : (s.markers.map Prod.fst).Nodup)
    (hh : 0 ≤ t.marker_index_hist_size)
    (hd : ∀ p ∈ s.markers, p.2.target_index = t.index →
        p.1 ≠ t.marker_index_document_id → p.2.date < now) :
    (getMarker t.marker_index_document_id s = none → t.exists' s = false)
    ∧ t.exists' (t.touch now s) = true
    ∧ marker_index ∈ (t.touch now s).indices
    ∧ getMarker t.marker_index_document_id (t.touch now s)
        = some (markerDocOf t now) := by
  obtain ⟨hg, -, -, -, hi⟩ := touch_master t s now hk hh hd
  refine ⟨?_, ?_, hi, hg⟩
  · intro h
    rw [exists'_eq_isSome, h]
    rfl
  · rw [exists'_eq_isSome, hg]
    rfl

/-- Witness for C3: from the empty state, exists() is false, then true right
after the touch. -/
theorem exists_false_before_true_after_witness :
    ((⟨"localhost", 9200, "books", "default", "update 1", 0⟩ :
        ElasticsearchTarget).exists' ⟨[], []⟩ = false)
    ∧ (⟨"localhost", 9200, "books", "default", "update 1", 0⟩ :
        ElasticsearchTarget).exists'
        ((⟨"localhost", 9200, "books", "default", "update 1", 0⟩ :
          ElasticsearchTarget).touch 1 ⟨[], []⟩) = true := by
  have h := exists_false_before_true_after
    ⟨"localhost", 9200, "books", "default", "update 1", 0⟩ ⟨[], []⟩ 1
    (by simp) (by decide) (fun p hp => absurd hp (List.not_mem_nil p))
  exact ⟨h.1 rfl, h.2.1⟩

/-! ### Claim C4: error policy of `exists` -/

/-- C4: exists() looks up the marker by its deterministic id and returns true
exactly when the document is found; it returns false both when the backend
reports not-found and when the lookup fails with any other backend error, and
in the error cases the message is logged (debug for not-found, warn for other
errors) and never raised — `existsResult` is a total function into a boolean
and a log, with no error outcome. -/
theorem exists_error_policy :
    (∀ d : MarkerDoc, existsResult (.found d) = (true, []))
    ∧ existsResult .notFoundError = (false, ["Marker document not found."])
    ∧ (∀ msg : String, existsResult (.esError msg) = (false, [msg]))
    ∧ (∀ o : GetOutcome, (existsResult o).1 = true ↔ ∃ d, o = .found d) := by
  refine ⟨fun d => rfl, rfl, fun msg => rfl, ?_⟩
  intro o
  cases o <;> simp [existsResult]

/-- Witness for C4 at a concrete backend error. -/
theorem exists_error_policy_witness :
    existsResult (.esError "connection refused") = (false, ["connection refused"]) :=
  exists_error_policy.2.2.1 "connection refused"

/-! ### Claim C9: negative history size deletes all fetched history -/

/-- C9: for every negative marker_index_hist_size, ensure_hist_size() does
not take the no-op branch (the guard tests equality with 0 only) and deletes
every hit the search returns for target_index: only markers for other
indices survive. -/
theorem ensure_hist_size_negative (t : ElasticsearchTarget) (s : ESState)
    (hneg : t.marker_index_hist_size < 0)
    (hk : (s.markers.map Prod.fst).Nodup) :
    (t.ensure_hist_size s).markers
      = s.markers.filter (fun p => decide (¬ p.2.target_index = t.index)) := by
  have hne : ¬ t.marker_index_hist_size = 0 := by omega
  rw [ensure_hist_size_of_ne t s hne]
  apply List.filter_congr
  intro p hp
  rw [decide_eq_decide, hitsToDelete_neg hneg]
  constructor
  · intro hnotin hidx
    refine hnotin (List.mem_map_of_mem _ ?_)
    unfold searchHits
    exact (List.mem_insertionSort dateDesc).2 (List.mem_filter.2 ⟨hp, by simpa using hidx⟩)
  · intro hnm hmem
    obtain ⟨q, hq, hq1⟩ := List.mem_map.1 hmem
    unfold searchHits at hq
    have hq2 := (List.mem_insertionSort dateDesc).1 hq
    have hq3 := List.mem_filter.1 hq2
    have heq : q = p := keyEq_of_nodup hk hq3.1 hp hq1
    have hq4 : q.2.target_index = t.index := by simpa using hq3.2
    rw [heq] at hq4
    exact hnm hq4

/-- Witness for C9: with hist_size = -1 the matching marker is deleted and
the non-matching one survives. -/
theorem ensure_hist_size_negative_witness :
    ((⟨"localhost", 9200, "books", "default", "u", -1⟩ :
        ElasticsearchTarget).ensure_hist_size
      ⟨[marker_index],
        [("m1", ⟨"u1", "books", "default", 1⟩),
         ("m2", ⟨"u2", "other", "default", 2⟩)]⟩).markers
      = [("m1", (⟨"u1", "books", "default", 1⟩ : MarkerDoc)),
         ("m2", (⟨"u2", "other", "default", 2⟩ : MarkerDoc))].filter
          (fun p => decide (¬ p.2.target_index
            = (⟨"localhost", 9200, "books", "default", "u", -1⟩ :
                ElasticsearchTarget).index)) :=
  ensure_hist_size_negative _ _ (by decide) (by decide)

/-! ### Claim C5: the pruning bound -/

theorem enum_map_snd {α : Type} (l : List α) : l.enum.map Prod.snd = l :=
  List.enumFrom_map_snd 0 l

theorem hitsToDelete_nonneg {h : Int} (hn : 0 ≤ h) (hits : List MarkerEntry) :
    hitsToDelete h hits = (hits.drop h.toNat).map Prod.fst := by
  have e : h = ((h.toNat : Nat) : Int) := (Int.toNat_of_nonneg hn).symm
  rw [e, hitsToDelete_ofNat]
  have e2 : ((h.toNat : Nat) : Int).toNat = h.toNat := by omega
  rw [e2]

theorem touch_markers_of_pos (t : ElasticsearchTarget) (s : ESState) (now : Nat)
    (h : ¬ t.marker_index_hist_size = 0) :
    (t.touch now s).markers
      = (indexDoc t.marker_index_document_id (markerDocOf t now) s.markers).filter
          (fun q => decide (q.1 ∉ hitsToDelete t.marker_index_hist_size
            (searchHits t.index (indexDoc t.marker_index_document_id
              (markerDocOf t now) s.markers)))) := by
  have h0 : (t.touch now s).markers
      = (t.ensure_hist_size ⟨(create_marker_index s).indices,
          indexDoc t.marker_index_document_id (markerDocOf t now)
            (create_marker_index s).markers⟩).markers := rfl
  rw [create_marker_index_markers] at h0
  rw [h0, ensure_hist_size_of_ne _ _ h]

theorem expectedMarkers_mem (host : String) (port : Nat) (idx dt : String)
    (hist : Int) (us : List String) (k : Nat) {x : MarkerEntry}
    (hx : x ∈ expectedMarkers host port idx dt hist us k) :
    x.1 ∈ us.map (midFor host port idx dt hist)
    ∧ x.2.target_index = idx ∧ x.2.date ≤ us.length := by
  unfold expectedMarkers at hx
  have h1 := List.mem_of_mem_take hx
  rw [List.mem_reverse] at h1
  obtain ⟨q, hq, rfl⟩ := List.mem_map.1 h1
  obtain ⟨i, v⟩ := q
  have h2 := List.mem_enumFrom hq
  refine ⟨List.mem_map_of_mem _ (List.snd_mem_of_mem_enum hq), rfl, ?_⟩
  show i + 1 ≤ us.length
  omega

theorem expectedMarkers_sorted (host : String) (port : Nat) (idx dt : String)
    (hist : Int) (us : List String) (k : Nat) :
    List.Sorted dateDesc (expectedMarkers host port idx dt hist us k) := by
  unfold expectedMarkers
  apply List.Pairwise.sublist (List.take_sublist _ _)
  rw [List.pairwise_reverse, List.pairwise_map]
  refine (pairwise_fst_lt_enumFrom us 0).imp ?_
  intro a b hab
  show a.1 + 1 ≤ b.1 + 1
  omega

theorem expectedMarkers_keys (host : String) (port : Nat) (idx dt : String)
    (hist : Int) (us : List String) (k : Nat) :
    (expectedMarkers host port idx dt hist us k).map Prod.fst
      = ((us.map (midFor host port idx dt hist)).reverse).take k := by
  unfold expectedMarkers
  rw [List.map_take, List.map_reverse, List.map_map]
  have h1 : (Prod.fst ∘ fun p : Nat × String =>
      ((midFor host port idx dt hist p.2, (⟨p.2, idx, dt, p.1 + 1⟩ : MarkerDoc)) : MarkerEntry))
      = (midFor host port idx dt hist) ∘ Prod.snd := rfl
  rw [h1, ← List.map_map, enum_map_snd]

theorem expectedMarkers_keys_nodup (host : String) (port : Nat) (idx dt : String)
    (hist : Int) (us : List String) (k : Nat)
    (hnd : (us.map (midFor host port idx dt hist)).Nodup) :
    ((expectedMarkers host port idx dt hist us k).map Prod.fst).Nodup := by
  rw [expectedMarkers_keys]
  exact (List.take_sublist _ _).nodup (List.nodup_reverse.2 hnd)

theorem expectedMarkers_append (host : String) (port : Nat) (idx dt : String)
    (hist : Int) (us : List String) (k : Nat) (u : String) :
    expectedMarkers host port idx dt hist (us ++ [u]) k
      = ((midFor host port idx dt hist u, (⟨u, idx, dt, us.length + 1⟩ : MarkerDoc))
          :: (us.enum.map (fun q => ((midFor host port idx dt hist q.2,
              (⟨q.2, idx, dt, q.1 + 1⟩ : MarkerDoc)) : MarkerEntry))).reverse).take k := by
  unfold expectedMarkers
  congr 1
  rw [List.enum_append]
  have h1 : List.enumFrom us.length [u] = [(us.length, u)] := rfl
  rw [h1, List.map_append, List.reverse_append]
  simp

theorem touchSeq_step (host : String) (port : Nat) (idx dt : String) (k : Nat)
    (hk : 0 < k) (p : List String) (u : String) (ix : List String)
    (hndp : (p.map (midFor host port idx dt (k : Int))).Nodup)
    (hfresh : midFor host port idx dt (k : Int) u
      ∉ p.map (midFor host port idx dt (k : Int))) :
    ((targetFor host port idx dt (k : Int) u).touch (p.length + 1)
        ⟨ix, expectedMarkers host port idx dt (k : Int) p k⟩).markers
      = expectedMarkers host port idx dt (k : Int) (p ++ [u]) k := by
  have hne : ¬ (targetFor host port idx dt (k : Int) u).marker_index_hist_size = 0 := by
    show ¬ ((k : Int) = 0)
    omega
  rw [touch_markers_of_pos _ _ _ hne]
  have e1 : (targetFor host port idx dt (k : Int) u).marker_index_document_id
      = midFor host port idx dt (k : Int) u := rfl
  have e2 : markerDocOf (targetFor host port idx dt (k : Int) u) (p.length + 1)
      = ⟨u, idx, dt, p.length + 1⟩ := rfl
  have e3 : (targetFor host port idx dt (k : Int) u).index = idx := rfl
  have e4 : (targetFor host port idx dt (k : Int) u).marker_index_hist_size = (k : Int) := rfl
  rw [e1, e2, e3, e4]
  have hfilter1 : (expectedMarkers host port idx dt (k : Int) p k).filter
      (fun q => decide (q.1 ≠ midFor host port idx dt (k : Int) u))
      = expectedMarkers host port idx dt (k : Int) p k := by
    rw [List.filter_eq_self]
    intro a ha
    simp only [decide_eq_true_eq]
    intro heq
    exact hfresh (heq ▸ (expectedMarkers_mem host port idx dt (k : Int) p k ha).1)
  have hidxdoc : indexDoc (midFor host port idx dt (k : Int) u)
      (⟨u, idx, dt, p.length + 1⟩ : MarkerDoc)
      (expectedMarkers host port idx dt (k : Int) p k)
      = (midFor host port idx dt (k : Int) u, (⟨u, idx, dt, p.length + 1⟩ : MarkerDoc))
        :: expectedMarkers host port idx dt (k : Int) p k := by
    unfold indexDoc
    rw [hfilter1]
  have hmatchall : ((midFor host port idx dt (k : Int) u,
      (⟨u, idx, dt, p.length + 1⟩ : MarkerDoc))
        :: expectedMarkers host port idx dt (k : Int) p k).filter
      (fun q => decide (q.2.target_index = idx))
      = (midFor host port idx dt (k : Int) u, (⟨u, idx, dt, p.length + 1⟩ : MarkerDoc))
        :: expectedMarkers host port idx dt (k : Int) p k := by
    rw [List.filter_eq_self]
    intro a ha
    rcases List.mem_cons.1 ha with rfl | ha'
    · simp
    · simp [(expectedMarkers_mem host port idx dt (k : Int) p k ha').2.1]
  have hsorted : List.Sorted dateDesc ((midFor host port idx dt (k : Int) u,
      (⟨u, idx, dt, p.length + 1⟩ : MarkerDoc))
        :: expectedMarkers host port idx dt (k : Int) p k) := by
    refine List.Pairwise.cons ?_ (expectedMarkers_sorted host port idx dt (k : Int) p k)
    intro x hx
    have hle := (expectedMarkers_mem host port idx dt (k : Int) p k hx).2.2
    show x.2.date ≤ p.length + 1
    omega
  have hhits : searchHits idx ((midFor host port idx dt (k : Int) u,
      (⟨u, idx, dt, p.length + 1⟩ : MarkerDoc))
        :: expectedMarkers host port idx dt (k : Int) p k)
      = (midFor host port idx dt (k : Int) u, (⟨u, idx, dt, p.length + 1⟩ : MarkerDoc))
        :: expectedMarkers host port idx dt (k : Int) p k := by
    unfold searchHits
    rw [hmatchall, List.Sorted.insertionSort_eq hsorted]
  have hknodup : (((midFor host port idx dt (k : Int) u,
      (⟨u, idx, dt, p.length + 1⟩ : MarkerDoc))
        :: expectedMarkers host port idx dt (k : Int) p k).map Prod.fst).Nodup := by
    rw [List.map_cons, List.nodup_cons]
    refine ⟨?_, expectedMarkers_keys_nodup host port idx dt (k : Int) p k hndp⟩
    intro hmem
    obtain ⟨a, ha, ha1⟩ := List.mem_map.1 hmem
    have ha2 : a.1 = midFor host port idx dt (k : Int) u := ha1
    exact hfresh (ha2 ▸ (expectedMarkers_mem host port idx dt (k : Int) p k ha).1)
  rw [hidxdoc, hhits, hitsToDelete_nonneg (Int.natCast_nonneg k)]
  have e5 : ((k : Nat) : Int).toNat = k := by omega
  rw [e5, filter_drop_keys _ hknodup]
  rw [expectedMarkers_append]
  obtain ⟨k', rfl⟩ : ∃ k', k = k' + 1 := ⟨k - 1, by omega⟩
  rw [List.take_succ_cons, List.take_succ_cons]
  congr 1
  unfold expectedMarkers
  rw [List.take_take]
  congr 1
  exact min_eq_left (Nat.le_succ k')

theorem touchSeq_invariant (host : String) (port : Nat) (idx dt : String) (k : Nat)
    (hk : 0 < k) :
    ∀ (rest p ix : List String),
      ((p ++ rest).map (midFor host port idx dt (k : Int))).Nodup →
      (touchSeq host port idx dt (k : Int) rest p.length
          ⟨ix, expectedMarkers host port idx dt (k : Int) p k⟩).markers
        = expectedMarkers host port idx dt (k : Int) (p ++ rest) k
  | [], p, ix, hnd => by simp [touchSeq]
  | u :: rest, p, ix, hnd => by
    show (touchSeq host port idx dt (k : Int) rest (p.length + 1)
        ((targetFor host port idx dt (k : Int) u).touch (p.length + 1)
          ⟨ix, expectedMarkers host port idx dt (k : Int) p k⟩)).markers = _
    have hsplit := hnd
    rw [List.map_append, List.nodup_append] at hsplit
    have hndp : (p.map (midFor host port idx dt (k : Int))).Nodup := hsplit.1
    have hfresh : midFor host port idx dt (k : Int) u
        ∉ p.map (midFor host port idx dt (k : Int)) := by
      intro hmem
      exact hsplit.2.2 hmem (by simp)
    have hstep := touchSeq_step host port idx dt k hk p u ix hndp hfresh
    have hstate : (targetFor host port idx dt (k : Int) u).touch (p.length + 1)
        ⟨ix, expectedMarkers host port idx dt (k : Int) p k⟩
        = ⟨((targetFor host port idx dt (k : Int) u).touch (p.length + 1)
              ⟨ix, expectedMarkers host port idx dt (k : Int) p k⟩).indices,
           expectedMarkers host port idx dt (k : Int) (p ++ [u]) k⟩ := by
      rw [← hstep]
    rw [hstate]
    have hlen : p.length + 1 = (p ++ [u]).length := by simp
    rw [hlen]
    have hrec := touchSeq_invariant host port idx dt k hk rest (p ++ [u])
      (((targetFor host port idx dt (k : Int) u).touch ((p ++ [u]).length)
          ⟨ix, expectedMarkers host port idx dt (k : Int) p k⟩).indices)
      (by simpa using hnd)
    simpa using hrec

/-- C5: pruning bound.  For every list of update ids touched in order at
strictly increasing dates against the same target_index with hist_size = k
where k > 0 (and with pairwise distinct marker document ids, as SHA-1
provides in practice), exactly min(N, k) marker documents remain in the
tracking index and the retained ones are the k most recent by date, newest
first; and for every target and state, pruning with hist_size = 0 deletes no
marker at all. -/
theorem prune_history_bound (host : String) (port : Nat) (idx dt : String)
    (k : Nat) (us : List String) (hk : 0 < k)
    (hnd : (us.map (midFor host port idx dt (k : Int))).Nodup) :
    ((touchSeq host port idx dt (k : Int) us 0 ⟨[], []⟩).markers
        = expectedMarkers host port idx dt (k : Int) us k
      ∧ (touchSeq host port idx dt (k : Int) us 0 ⟨[], []⟩).markers.length
        = min us.length k)
    ∧ ∀ (t : ElasticsearchTarget) (s : ESState),
        t.marker_index_hist_size = 0 → t.ensure_hist_size s = s := by
  constructor
  · have h := touchSeq_invariant host port idx dt k hk us [] [] (by simpa using hnd)
    have h00 : expectedMarkers host port idx dt (k : Int) [] k = [] := by
      unfold expectedMarkers
      simp
    rw [h00] at h
    have h0 : (touchSeq host port idx dt (k : Int) us 0 ⟨[], []⟩).markers
        = expectedMarkers host port idx dt (k : Int) us k := by simpa using h
    refine ⟨h0, ?_⟩
    rw [h0]
    unfold expectedMarkers
    rw [List.length_take, List.length_reverse, List.length_map, List.enum_length]
    exact Nat.min_comm _ _
  · intro t s h
    exact ensure_hist_size_of_zero t s h

/-- Witness for C5: two touches with hist_size = 1 keep only the most recent
marker; and a concrete hist_size = 0 pruning is the identity. -/
theorem prune_history_bound_witness :
    ((touchSeq "localhost" 9200 "books" "default" ((1 : Nat) : Int)
          ["update 1", "update 2"] 0 ⟨[], []⟩).markers
        = expectedMarkers "localhost" 9200 "books" "default" ((1 : Nat) : Int)
            ["update 1", "update 2"] 1
      ∧ (touchSeq "localhost" 9200 "books" "default" ((1 : Nat) : Int)
          ["update 1", "update 2"] 0 ⟨[], []⟩).markers.length
        = min (["update 1", "update 2"] : List String).length 1)
    ∧ (⟨"localhost", 9200, "books", "default", "u", 0⟩ :
        ElasticsearchTarget).ensure_hist_size ⟨[], []⟩ = ⟨[], []⟩ :=
  ⟨(prune_history_bound "localhost" 9200 "books" "default" 1
      ["update 1", "update 2"] (by decide) (by decide)).1,
   (prune_history_bound "localhost" 9200 "books" "default" 1
      ["update 1", "update 2"] (by decide) (by decide)).2 _ _ rfl⟩

/-! ### Claim C8: document normalization -/

theorem hasField_false_find? {k : String} {d : Doc} (h : hasField k d = false) :
    d.find? (fun p => decide (p.1 = k)) = none := by
  unfold hasField at h
  rw [List.any_eq_false] at h
  rw [List.find?_eq_none]
  exact h

theorem getField_append_ne (k : String) (d : Doc) (x : String × String)
    (hx : x.1 ≠ k) : getField k (d ++ [x]) = getField k d := by
  unfold getField
  rw [List.find?_append]
  have h0 : List.find? (fun p => decide (p.1 = k)) [x] = none := by
    rw [List.find?_eq_none]
    intro y hy
    rw [List.mem_singleton] at hy
    subst hy
    simpa using hx
  rw [h0, Option.or_none]

theorem getField_append_hit (k : String) (d : Doc) (v : String)
    (h : hasField k d = false) : getField k (d ++ [(k, v)]) = some v := by
  unfold getField
  rw [List.find?_append, hasField_false_find? h, Option.none_or]
  rw [List.find?_cons_of_pos _ (by simp)]
  rfl

theorem hasField_append_ne (k : String) (d : Doc) (x : String × String)
    (hx : x.1 ≠ k) : hasField k (d ++ [x]) = hasField k d := by
  unfold hasField
  rw [List.any_append]
  have h0 : [x].any (fun p => decide (p.1 = k)) = false := by
    simp [hx]
  rw [h0, Bool.or_false]

/-- C8: document normalization in `_docs`.  For every input document missing
`_index` or `_type`, the normalized document has the missing field set to the
run's configured index / doc_type; for every input document that already
carries `_index` or `_type`, the original values are preserved unchanged; all
other fields pass through unmodified.  The last two conjuncts tie the
per-document normalization to the `_docs` processing of structured and of
textual (JSON-parsed) entries. -/
theorem docs_normalization (idx dt : String) (d : Doc) :
    (hasField "_index" d = false →
      getField "_index" (addIndexAndType idx dt d) = some idx)
    ∧ (hasField "_index" d = true →
      getField "_index" (addIndexAndType idx dt d) = getField "_index" d)
    ∧ (hasField "_type" d = false →
      getField "_type" (addIndexAndType idx dt d) = some dt)
    ∧ (hasField "_type" d = true →
      getField "_type" (addIndexAndType idx dt d) = getField "_type" d)
    ∧ (∀ k, k ≠ "_index" → k ≠ "_type" →
      getField k (addIndexAndType idx dt d) = getField k d)
    ∧ (∀ loads : String → Doc,
      normalizeDoc loads idx dt false (.dict d) = .ok (.dict (addIndexAndType idx dt d)))
    ∧ (∀ (loads : String → Doc) (str0 : String), loads str0 = d →
      normalizeDoc loads idx dt true (.str str0) = .ok (.dict (addIndexAndType idx dt d))) := by
  have hty : ∀ d' : Doc, getField "_index" (addTypeDefault dt d') = getField "_index" d' := by
    intro d'
    unfold addTypeDefault
    split
    · rfl
    · exact getField_append_ne _ _ _ (by simp)
  have hd1ty : ∀ d' : Doc, hasField "_type" (addIndexDefault idx d') = hasField "_type" d' := by
    intro d'
    unfold addIndexDefault
    split
    · rfl
    · exact hasField_append_ne _ _ _ (by simp)
  refine ⟨?_, ?_, ?_, ?_, ?_, fun loads => rfl, ?_⟩
  · intro h
    unfold addIndexAndType
    rw [hty]
    unfold addIndexDefault
    rw [if_neg (by simp [h])]
    exact getField_append_hit _ _ _ h
  · intro h
    unfold addIndexAndType
    rw [hty]
    unfold addIndexDefault
    rw [if_pos h]
  · intro h
    unfold addIndexAndType addTypeDefault
    rw [hd1ty, if_neg (by simp [h])]
    apply getField_append_hit
    rw [hd1ty]
    exact h
  · intro h
    unfold addIndexAndType addTypeDefault
    rw [hd1ty, if_pos h]
    unfold addIndexDefault
    split
    · rfl
    · exact getField_append_ne _ _ _ (by simp)
  · intro k hki hkt
    unfold addIndexAndType addTypeDefault
    have hbase : ∀ d' : Doc, getField k (addIndexDefault idx d') = getField k d' := by
      intro d'
      unfold addIndexDefault
      split
      · rfl
      · exact getField_append_ne _ _ _ (by simpa using fun h => hki h.symm)
    split
    · exact hbase d
    · rw [getField_append_ne _ _ _ (by simpa using fun h => hkt h.symm)]
      exact hbase d
  · intro loads str0 hl
    show Except.ok (PyVal.dict (addIndexAndType idx dt (loads str0))) = _
    rw [hl]

/-- Witness for C8 at a concrete document: `_index` is injected when absent,
an existing `_type` is preserved, and an unrelated field passes through. -/
theorem docs_normalization_witness :
    getField "_index" (addIndexAndType "books" "default" [("_type", "special"), ("title", "x")])
      = some "books"
    ∧ getField "_type" (addIndexAndType "books" "default" [("_type", "special"), ("title", "x")])
      = getField "_type" [("_type", "special"), ("title", "x")]
    ∧ getField "title" (addIndexAndType "books" "default" [("_type", "special"), ("title", "x")])
      = getField "title" [("_type", "special"), ("title", "x")] :=
  ⟨(docs_normalization "books" "default" _).1 (by decide),
   (docs_normalization "books" "default" _).2.2.2.1 (by decide),
   (docs_normalization "books" "default" _).2.2.2.2.1 "title" (by decide) (by decide)⟩

/-! ### Claim C10: mode selection of `_docs` -/

theorem delete_index_no_bulk (c : CopyToIndexConfig) (s : ESState) (b : List PyVal) :
    ESEvent.bulkCall b ∉ (CopyToIndex.delete_index c s).1 := by
  unfold CopyToIndex.delete_index
  split <;> simp

theorem create_index_no_bulk (c : CopyToIndexConfig) (s : ESState) (b : List PyVal) :
    ESEvent.bulkCall b ∉ (CopyToIndex.create_index c s).1 := by
  unfold CopyToIndex.create_index
  split <;> simp

theorem purge_no_bulk (c : CopyToIndexConfig) (s : ESState) (purge : Bool) (b : List PyVal) :
    ESEvent.bulkCall b ∉ (if purge then CopyToIndex.delete_index c s else ([], s)).1 := by
  split
  · exact delete_index_no_bulk c s b
  · simp

theorem mapping_events_no_bulk (mp : Option String) (i dtt : String) (b : List PyVal) :
    ESEvent.bulkCall b ∉ (match mp with
      | some m => [ESEvent.putMappingCall i dtt m]
      | none => ([] : List ESEvent)) := by
  cases mp <;> simp

/-- C10: `_docs` chooses its parsing mode solely from the first element
yielded by `docs()`.  If the first element is neither a string nor a dict it
raises RuntimeError, and a run over such a stream never issues any bulk call
(the error fires before any document is submitted).  If the first element is
a string, every document in the stream goes through the JSON-parsing path (in
particular an all-string stream is parsed element by element with `loads`).
If the first element is a dict, no document is JSON-parsed: the result does
not depend on the `loads` function at all. -/
theorem docs_mode_selection :
    (∀ (loads : String → Doc) (idx dt g : String) (rest : List PyVal),
      CopyToIndex._docs loads idx dt (.other g :: rest)
        = .error "Document must be either JSON strings or dict.")
    ∧ (∀ (c : CopyToIndexConfig) (o : Oracle) (loads : String → Doc) (g : String)
        (rest : List PyVal) (now : Nat) (s : ESState) (b : List PyVal),
      ESEvent.bulkCall b ∉ (CopyToIndex.run c o loads (.other g :: rest) now s).trace)
    ∧ (∀ (loads : String → Doc) (idx dt str0 : String) (rest : List PyVal),
      CopyToIndex._docs loads idx dt (.str str0 :: rest)
        = exceptMap (normalizeDoc loads idx dt true) (.str str0 :: rest))
    ∧ (∀ (loads : String → Doc) (idx dt s0 : String) (ss : List String),
      CopyToIndex._docs loads idx dt ((s0 :: ss).map PyVal.str)
        = .ok ((s0 :: ss).map (fun x => .dict (addIndexAndType idx dt (loads x)))))
    ∧ (∀ (loads1 loads2 : String → Doc) (idx dt : String) (d : Doc) (rest : List PyVal),
      CopyToIndex._docs loads1 idx dt (.dict d :: rest)
        = CopyToIndex._docs loads2 idx dt (.dict d :: rest)) := by
  have hstrmap : ∀ (loads : String → Doc) (idx dt : String) (ss : List String),
      exceptMap (normalizeDoc loads idx dt true) (ss.map PyVal.str)
        = .ok (ss.map (fun x => .dict (addIndexAndType idx dt (loads x)))) := by
    intro loads idx dt ss
    induction ss with
    | nil => rfl
    | cons x xs ih =>
      show exceptMap (normalizeDoc loads idx dt true) (.str x :: xs.map PyVal.str) = _
      unfold exceptMap
      rw [ih]
      rfl
  have hnd : ∀ (loads1 loads2 : String → Doc) (idx dt : String) (v : PyVal),
      normalizeDoc loads1 idx dt false v = normalizeDoc loads2 idx dt false v := by
    intro loads1 loads2 idx dt v
    cases v <;> rfl
  have hmap : ∀ (loads1 loads2 : String → Doc) (idx dt : String) (vs : List PyVal),
      exceptMap (normalizeDoc loads1 idx dt false) vs
        = exceptMap (normalizeDoc loads2 idx dt false) vs := by
    intro loads1 loads2 idx dt vs
    induction vs with
    | nil => rfl
    | cons v vs ih =>
      unfold exceptMap
      rw [hnd loads1 loads2 idx dt v, ih]
  refine ⟨fun _ _ _ _ _ => rfl, ?_, fun _ _ _ _ _ => rfl, ?_, ?_⟩
  · intro c o loads g rest now s b
    intro hmem
    unfold CopyToIndex.run at hmem
    split at hmem
    · simp at hmem
    · dsimp only at hmem
      split at hmem
      · exact purge_no_bulk c s _ b hmem
      · split at hmem
        · rcases List.mem_append.1 hmem with h | h
          · exact purge_no_bulk c s _ b h
          · exact create_index_no_bulk c _ b h
        · split at hmem
          · rcases List.mem_append.1 hmem with h | h
            · rcases List.mem_append.1 h with h' | h'
              · exact purge_no_bulk c s _ b h'
              · exact create_index_no_bulk c _ b h'
            · exact mapping_events_no_bulk _ c.index c.doc_type b h
          · split at hmem
            · rcases List.mem_append.1 hmem with h | h
              · rcases List.mem_append.1 h with h' | h'
                · rcases List.mem_append.1 h' with h'' | h''
                  · exact purge_no_bulk c s _ b h''
                  · exact create_index_no_bulk c _ b h''
                · exact mapping_events_no_bulk _ c.index c.doc_type b h'
              · simp at h
            · rename_i heq
              exact absurd heq (by simp [CopyToIndex._docs])
  · intro loads idx dt s0 ss
    show CopyToIndex._docs loads idx dt (.str s0 :: ss.map PyVal.str) = _
    unfold CopyToIndex._docs
    exact hstrmap loads idx dt (s0 :: ss)
  · intro loads1 loads2 idx dt d rest
    unfold CopyToIndex._docs
    exact hmap loads1 loads2 idx dt (.dict d :: rest)

/-- Witness for C10: a concrete non-string, non-dict first element raises
the RuntimeError, and a concrete two-string stream is JSON-parsed
elementwise. -/
theorem docs_mode_selection_witness :
    CopyToIndex._docs (fun s => [("raw", s)]) "books" "default"
        (.other "int" :: [.dict [("a", "1")]])
      = .error "Document must be either JSON strings or dict."
    ∧ CopyToIndex._docs (fun s => [("raw", s)]) "books" "default"
        (["x", "y"].map PyVal.str)
      = .ok (["x", "y"].map (fun x =>
          .dict (addIndexAndType "books" "default" [("raw", x)]))) :=
  ⟨docs_mode_selection.1 (fun s => [("raw", s)]) "books" "default" "int" [.dict [("a", "1")]],
   docs_mode_selection.2.2.2.1 (fun s => [("raw", s)]) "books" "default" "x" ["y"]⟩

/-! ### Claim C7: failures propagate and the marker is never touched -/

theorem delete_index_markers (c : CopyToIndexConfig) (s : ESState) :
    (CopyToIndex.delete_index c s).2.markers = s.markers := by
  unfold CopyToIndex.delete_index
  split <;> rfl

theorem create_index_markers (c : CopyToIndexConfig) (s : ESState) :
    (CopyToIndex.create_index c s).2.markers = s.markers := by
  unfold CopyToIndex.create_index
  split <;> rfl

theorem purge_markers (c : CopyToIndexConfig) (s : ESState) (purge : Bool) :
    (if purge then CopyToIndex.delete_index c s else ([], s)).2.markers = s.markers := by
  split
  · exact delete_index_markers c s
  · rfl

theorem exists'_markers_congr (t : ElasticsearchTarget) {s s' : ESState}
    (h : s.markers = s'.markers) : t.exists' s = t.exists' s' := by
  rw [exists'_eq_isSome, exists'_eq_isSome, getMarker_congr _ h]

theorem delete_index_no_touch (c : CopyToIndexConfig) (s : ESState)
    (hh : String) (pp : Nat) (ii ddt uu : String) :
    ESEvent.touchCall hh pp ii ddt uu ∉ (CopyToIndex.delete_index c s).1 := by
  unfold CopyToIndex.delete_index
  split <;> simp

theorem create_index_no_touch (c : CopyToIndexConfig) (s : ESState)
    (hh : String) (pp : Nat) (ii ddt uu : String) :
    ESEvent.touchCall hh pp ii ddt uu ∉ (CopyToIndex.create_index c s).1 := by
  unfold CopyToIndex.create_index
  split <;> simp

theorem purge_no_touch (c : CopyToIndexConfig) (s : ESState) (purge : Bool)
    (hh : String) (pp : Nat) (ii ddt uu : String) :
    ESEvent.touchCall hh pp ii ddt uu
      ∉ (if purge then CopyToIndex.delete_index c s else ([], s)).1 := by
  split
  · exact delete_index_no_touch c s hh pp ii ddt uu
  · simp

theorem mapping_events_no_touch (mp : Option String) (i dtt : String)
    (hh : String) (pp : Nat) (ii ddt uu : String) :
    ESEvent.touchCall hh pp ii ddt uu ∉ (match mp with
      | some m => [ESEvent.putMappingCall i dtt m]
      | none => ([] : List ESEvent)) := by
  cases mp <;> simp

theorem bulkRun_no_touch (o : Oracle) (roe : Bool) (bs : List (List PyVal))
    (hh : String) (pp : Nat) (ii ddt uu : String) :
    ESEvent.touchCall hh pp ii ddt uu ∉ (bulkRun o roe bs).1 := by
  induction bs with
  | nil => simp [bulkRun]
  | cons b bs ih =>
    unfold bulkRun
    cases hob : o.bulkErr b <;> cases roe <;> simp_all

/-- C7: if any of run()'s steps 1-7 fails (in particular a bulk submission
failure with raise_on_error = true), the error propagates out of run() as its
error result, touch() is never called (no touch event appears in the trace),
and the tracking index is unchanged, so a subsequent exists() for that run's
key returns exactly what it returned before the run — in particular false if
no marker existed. -/
theorem run_failure_no_touch (c : CopyToIndexConfig) (o : Oracle) (loads : String → Doc)
    (docs : List PyVal) (now : Nat) (s : ESState) (e : String)
    (herr : (CopyToIndex.run c o loads docs now s).error = some e) :
    (∀ (hh : String) (pp : Nat) (ii ddt uu : String),
      ESEvent.touchCall hh pp ii ddt uu ∉ (CopyToIndex.run c o loads docs now s).trace)
    ∧ (CopyToIndex.run c o loads docs now s).state.markers = s.markers
    ∧ c.output.exists' (CopyToIndex.run c o loads docs now s).state
        = c.output.exists' s := by
  revert herr
  unfold CopyToIndex.run
  split
  · intro _
    exact ⟨fun hh pp ii ddt uu => by simp, rfl, rfl⟩
  · dsimp only
    split
    · intro _
      refine ⟨fun hh pp ii ddt uu => purge_no_touch c s _ hh pp ii ddt uu,
        purge_markers c s _, exists'_markers_congr _ (purge_markers c s _)⟩
    · split
      · intro _
        have hm : (CopyToIndex.create_index c
            (if c.purge_existing_index then CopyToIndex.delete_index c s else ([], s)).2).2.markers
            = s.markers := by
          rw [create_index_markers, purge_markers]
        refine ⟨?_, hm, exists'_markers_congr _ hm⟩
        intro hh pp ii ddt uu hmem
        rcases List.mem_append.1 hmem with h | h
        · exact purge_no_touch c s _ hh pp ii ddt uu h
        · exact create_index_no_touch c _ hh pp ii ddt uu h
      · split
        · intro _
          have hm : (CopyToIndex.create_index c
              (if c.purge_existing_index then CopyToIndex.delete_index c s else ([], s)).2).2.markers
              = s.markers := by
            rw [create_index_markers, purge_markers]
          refine ⟨?_, hm, exists'_markers_congr _ hm⟩
          intro hh pp ii ddt uu hmem
          rcases List.mem_append.1 hmem with h | h
          · rcases List.mem_append.1 h with h' | h'
            · exact purge_no_touch c s _ hh pp ii ddt uu h'
            · exact create_index_no_touch c _ hh pp ii ddt uu h'
          · exact mapping_events_no_touch _ c.index c.doc_type hh pp ii ddt uu h
        · split
          · intro _
            have hm : (CopyToIndex.create_index c
                (if c.purge_existing_index then CopyToIndex.delete_index c s else ([], s)).2).2.markers
                = s.markers := by
              rw [create_index_markers, purge_markers]
            refine ⟨?_, hm, exists'_markers_congr _ hm⟩
            intro hh pp ii ddt uu hmem
            rcases List.mem_append.1 hmem with h | h
            · rcases List.mem_append.1 h with h' | h'
              · rcases List.mem_append.1 h' with h'' | h''
                · exact purge_no_touch c s _ hh pp ii ddt uu h''
                · exact create_index_no_touch c _ hh pp ii ddt uu h''
              · exact mapping_events_no_touch _ c.index c.doc_type hh pp ii ddt uu h'
            · simp at h
          · split
            · intro _
              have hm : (CopyToIndex.create_index c
                  (if c.purge_existing_index then CopyToIndex.delete_index c s else ([], s)).2).2.markers
                  = s.markers := by
                rw [create_index_markers, purge_markers]
              refine ⟨?_, hm, exists'_markers_congr _ hm⟩
              intro hh pp ii ddt uu hmem
              rcases List.mem_append.1 hmem with h | h
              · rcases List.mem_append.1 h with h' | h'
                · rcases List.mem_append.1 h' with h'' | h''
                  · rcases List.mem_append.1 h'' with h3 | h3
                    · exact purge_no_touch c s _ hh pp ii ddt uu h3
                    · exact create_index_no_touch c _ hh pp ii ddt uu h3
                  · exact mapping_events_no_touch _ c.index c.doc_type hh pp ii ddt uu h''
                · simp at h'
              · exact bulkRun_no_touch o _ _ hh pp ii ddt uu h
            · split
              · intro _
                have hm : (CopyToIndex.create_index c
                    (if c.purge_existing_index then CopyToIndex.delete_index c s else ([], s)).2).2.markers
                    = s.markers := by
                  rw [create_index_markers, purge_markers]
                refine ⟨?_, hm, exists'_markers_congr _ hm⟩
                intro hh pp ii ddt uu hmem
                rcases List.mem_append.1 hmem with h | h
                · rcases List.mem_append.1 h with h' | h'
                  · rcases List.mem_append.1 h' with h'' | h''
                    · rcases List.mem_append.1 h'' with h3 | h3
                      · exact purge_no_touch c s _ hh pp ii ddt uu h3
                      · exact create_index_no_touch c _ hh pp ii ddt uu h3
                    · exact mapping_events_no_touch _ c.index c.doc_type hh pp ii ddt uu h''
                  · simp at h'
                · exact bulkRun_no_touch o _ _ hh pp ii ddt uu h
              · split
                · intro _
                  have hm : (CopyToIndex.create_index c
                      (if c.purge_existing_index then CopyToIndex.delete_index c s else ([], s)).2).2.markers
                      = s.markers := by
                    rw [create_index_markers, purge_markers]
                  refine ⟨?_, hm, exists'_markers_congr _ hm⟩
                  intro hh pp ii ddt uu hmem
                  rcases List.mem_append.1 hmem with h | h
                  · rcases List.mem_append.1 h with h' | h'
                    · rcases List.mem_append.1 h' with h'' | h''
                      · rcases List.mem_append.1 h'' with h3 | h3
                        · rcases List.mem_append.1 h3 with h4 | h4
                          · exact purge_no_touch c s _ hh pp ii ddt uu h4
                          · exact create_index_no_touch c _ hh pp ii ddt uu h4
                        · exact mapping_events_no_touch _ c.index c.doc_type hh pp ii ddt uu h3
                      · simp at h''
                    · exact bulkRun_no_touch o _ _ hh pp ii ddt uu h'
                  · simp at h
                · intro herr
                  exact absurd herr (by simp)

/-- Witness for C7: a concrete bulk failure with raise_on_error propagates,
no touch event is issued, and the tracking index stays empty. -/
theorem run_failure_no_touch_witness :
    (ESEvent.touchCall "localhost" 9200 "books" "default" "task 1"
      ∉ (CopyToIndex.run
          ⟨"localhost", 9200, "books", "default", none, "s", 2, true, false, 0, 10, "task 1"⟩
          ⟨none, none, none, none, none, none, fun _ => some "bulk failed"⟩
          (fun s => [("raw", s)]) [.dict [("a", "1")]] 5 ⟨[], []⟩).trace)
    ∧ (CopyToIndex.run
        ⟨"localhost", 9200, "books", "default", none, "s", 2, true, false, 0, 10, "task 1"⟩
        ⟨none, none, none, none, none, none, fun _ => some "bulk failed"⟩
        (fun s => [("raw", s)]) [.dict [("a", "1")]] 5 ⟨[], []⟩).state.markers
      = (⟨[], []⟩ : ESState).markers := by
  have h := run_failure_no_touch
    ⟨"localhost", 9200, "books", "default", none, "s", 2, true, false, 0, 10, "task 1"⟩
    ⟨none, none, none, none, none, none, fun _ => some "bulk failed"⟩
    (fun s => [("raw", s)]) [.dict [("a", "1")]] 5 ⟨[], []⟩ "bulk failed" (by rfl)
  exact ⟨h.1 "localhost" 9200 "books" "default" "task 1", h.2.1⟩

/-! ### Claim C6: order of the steps of `run` -/

theorem bulkRun_ok {o : Oracle} (h : ∀ b, o.bulkErr b = none) (roe : Bool)
    (bs : List (List PyVal)) :
    bulkRun o roe bs = (bs.map ESEvent.bulkCall, none) := by
  induction bs with
  | nil => rfl
  | cons b bs ih =>
    unfold bulkRun
    rw [h b]
    cases roe <;> simp [ih]

/-- C6: with a healthy backend, run() performs its steps in this order:
optionally delete the target index (only when purge_existing_index is set),
create the target index if absent with the configured settings, apply the
mapping if configured, disable the refresh interval, bulk-submit the
normalized documents in batches of chunk_size, restore the refresh interval
(to "1s"), force one refresh, and finally write exactly one marker via
touch(), after which exists() for the run's update identity returns true. -/
theorem run_step_order (c : CopyToIndexConfig) (o : Oracle) (loads : String → Doc)
    (docs : List PyVal) (now : Nat) (s : ESState) (normed : List PyVal)
    (h1 : o.deleteErr = none) (h2 : o.createErr = none) (h3 : o.mappingErr = none)
    (h4 : o.disableErr = none) (h5 : o.restoreErr = none) (h6 : o.refreshErr = none)
    (h7 : ∀ b, o.bulkErr b = none)
    (hdocs : CopyToIndex._docs loads c.index c.doc_type docs = .ok normed)
    (hk : (s.markers.map Prod.fst).Nodup)
    (hh : 0 ≤ c.marker_index_hist_size)
    (hd : ∀ p ∈ s.markers, p.2.target_index = c.index →
        p.1 ≠ c.output.marker_index_document_id → p.2.date < now) :
    (CopyToIndex.run c o loads docs now s).trace
      = (if c.purge_existing_index then (CopyToIndex.delete_index c s).1 else [])
        ++ (CopyToIndex.create_index c
            (if c.purge_existing_index then (CopyToIndex.delete_index c s).2 else s)).1
        ++ (match c.mapping with
            | some m => [ESEvent.putMappingCall c.index c.doc_type m]
            | none => [])
        ++ [ESEvent.putSettingsCall c.index "-1"]
        ++ (chunksOf c.chunk_size normed).map ESEvent.bulkCall
        ++ [ESEvent.putSettingsCall c.index "1s", ESEvent.refreshCall,
            ESEvent.touchCall c.host c.port c.index c.doc_type c.update_id]
    ∧ (CopyToIndex.run c o loads docs now s).error = none
    ∧ (CopyToIndex.run c o loads docs now s).state
        = c.output.touch now (CopyToIndex.create_index c
            (if c.purge_existing_index then (CopyToIndex.delete_index c s).2 else s)).2
    ∧ c.output.exists' (CopyToIndex.run c o loads docs now s).state = true
    ∧ (CopyToIndex.run c o loads docs now s).state.markers.countP
        (fun p => decide (p.1 = c.output.marker_index_document_id)) = 1 := by
  have hbulk := bulkRun_ok h7 c.raise_on_error (chunksOf c.chunk_size normed)
  have hrun : CopyToIndex.run c o loads docs now s
      = ⟨(if c.purge_existing_index then (CopyToIndex.delete_index c s).1 else [])
          ++ (CopyToIndex.create_index c
              (if c.purge_existing_index then (CopyToIndex.delete_index c s).2 else s)).1
          ++ (match c.mapping with
              | some m => [ESEvent.putMappingCall c.index c.doc_type m]
              | none => [])
          ++ [ESEvent.putSettingsCall c.index "-1"]
          ++ (chunksOf c.chunk_size normed).map ESEvent.bulkCall
          ++ [ESEvent.putSettingsCall c.index "1s", ESEvent.refreshCall,
              ESEvent.touchCall c.host c.port c.index c.doc_type c.update_id],
         c.output.touch now (CopyToIndex.create_index c
            (if c.purge_existing_index then (CopyToIndex.delete_index c s).2 else s)).2,
         none⟩ := by
    unfold CopyToIndex.run
    cases hp : c.purge_existing_index <;> cases hm : c.mapping <;>
      simp [h1, h2, h3, h4, h5, h6, hdocs, hbulk, List.append_assoc]
  have hmark1 : (CopyToIndex.create_index c
      (if c.purge_existing_index then (CopyToIndex.delete_index c s).2 else s)).2.markers
      = s.markers := by
    rw [create_index_markers]
    split
    · exact delete_index_markers c s
    · rfl
  have htm := touch_master c.output
    (CopyToIndex.create_index c
      (if c.purge_existing_index then (CopyToIndex.delete_index c s).2 else s)).2 now
    (by rw [hmark1]; exact hk) hh (by rw [hmark1]; exact hd)
  refine ⟨?_, ?_, ?_, ?_, ?_⟩
  · rw [hrun]
  · rw [hrun]
  · rw [hrun]
  · rw [hrun]
    show c.output.exists' (c.output.touch now _) = true
    rw [exists'_eq_isSome, htm.1]
    rfl
  · rw [hrun]
    exact htm.2.1

/-- Witness for C6: the spec's end-to-end scenario — 3 structured records
lacking `_index` and `_type`, chunk_size 2, purge off, fresh backend: the
index is created, refresh is toggled off and back on around two bulk batches
of sizes 2 and 1, one refresh and one touch follow, and exists() then
reports true with exactly one marker present. -/
theorem run_step_order_witness :
    (CopyToIndex.run
        ⟨"localhost", 9200, "books", "default", none, "settings-body", 2, true, false, 0, 10,
          "task 1"⟩
        ⟨none, none, none, none, none, none, fun _ => none⟩
        (fun s => [("raw", s)])
        [.dict [("a", "1")], .dict [("b", "2")], .dict [("c", "3")]] 7 ⟨[], []⟩).trace
      = [ESEvent.createIndexCall "books" "settings-body",
         ESEvent.putSettingsCall "books" "-1",
         ESEvent.bulkCall [.dict [("a", "1"), ("_index", "books"), ("_type", "default")],
                           .dict [("b", "2"), ("_index", "books"), ("_type", "default")]],
         ESEvent.bulkCall [.dict [("c", "3"), ("_index", "books"), ("_type", "default")]],
         ESEvent.putSettingsCall "books" "1s",
         ESEvent.refreshCall,
         ESEvent.touchCall "localhost" 9200 "books" "default" "task 1"]
    ∧ (CopyToIndex.run
        ⟨"localhost", 9200, "books", "default", none, "settings-body", 2, true, false, 0, 10,
          "task 1"⟩
        ⟨none, none, none, none, none, none, fun _ => none⟩
        (fun s => [("raw", s)])
        [.dict [("a", "1")], .dict [("b", "2")], .dict [("c", "3")]] 7 ⟨[], []⟩).error = none
    ∧ (⟨"localhost", 9200, "books", "default", none, "settings-body", 2, true, false, 0, 10,
          "task 1"⟩ : CopyToIndexConfig).output.exists'
        (CopyToIndex.run
          ⟨"localhost", 9200, "books", "default", none, "settings-body", 2, true, false, 0, 10,
            "task 1"⟩
          ⟨none, none, none, none, none, none, fun _ => none⟩
          (fun s => [("raw", s)])
          [.dict [("a", "1")], .dict [("b", "2")], .dict [("c", "3")]] 7 ⟨[], []⟩).state = true
    ∧ (CopyToIndex.run
        ⟨"localhost", 9200, "books", "default", none, "settings-body", 2, true, false, 0, 10,
          "task 1"⟩
        ⟨none, none, none, none, none, none, fun _ => none⟩
        (fun s => [("raw", s)])
        [.dict [("a", "1")], .dict [("b", "2")], .dict [("c", "3")]] 7
        ⟨[], []⟩).state.markers.countP
        (fun p => decide (p.1 = (⟨"localhost", 9200, "books", "default", none, "settings-body",
          2, true, false, 0, 10, "task 1"⟩ : CopyToIndexConfig).output.marker_index_document_id))
      = 1 := by
  obtain ⟨ht, he, hst, hex, hcp⟩ := run_step_order
    ⟨"localhost", 9200, "books", "default", none, "settings-body", 2, true, false, 0, 10,
      "task 1"⟩
    ⟨none, none, none, none, none, none, fun _ => none⟩
    (fun s => [("raw", s)])
    [.dict [("a", "1")], .dict [("b", "2")], .dict [("c", "3")]] 7 ⟨[], []⟩
    [.dict [("a", "1"), ("_index", "books"), ("_type", "default")],
     .dict [("b", "2"), ("_index", "books"), ("_type", "default")],
     .dict [("c", "3"), ("_index", "books"), ("_type", "default")]]
    rfl rfl rfl rfl rfl rfl (fun b => rfl) (by rfl) (by simp) (by decide)
    (fun p hp => absurd hp (List.not_mem_nil p))
  exact ⟨ht.trans rfl, he, hex, hcp⟩
